import Mathlib

/-!
Shallow embedding of the adaptive playback replay engine
(`youtube_traces/simulation/replayer_2.py`): configuration constants, the
shared simulation state, the buffer-aware bandwidth estimator, the ABR
decision function, the playback clock tick, the stream-worker gating check
and state update, and the final metrics (per-stream rates and Jain's
fairness index).  Python floats are modelled as exact rationals; the
Python `dict`/`defaultdict` fields are modelled as total functions with
the default value, or as insertion-ordered association lists where the
aggregation over entries matters.
-/

namespace Replayer

/-- The `BITRATE_LADDER` of the configuration block: (bitrate in Mbps, label). -/
def BITRATE_LADDER : List (ℚ × String) :=
  [(1/2, "240p"), (1, "360p"), (5/2, "720p"), (5, "1080p"), (8, "1440p")]

/-- The bitrates of the ladder rungs, in ladder order. -/
def ladderRates : List ℚ := BITRATE_LADDER.map Prod.fst

def PREFETCH_TARGET : ℚ := 5

def PANIC_THRESHOLD : ℚ := 5

def MAX_BUFFER_ACTIVE : ℚ := 20

def TP_WINDOW_LEN : ℕ := 10

/-- The shared simulation state built in `run_client` (step 2), with the
real-time fields made explicit rationals.  `buffers` and `swipe_map` are
Python dicts: `buffers` is a `defaultdict(float)` (total function, default
0 handled by construction), `swipe_map` lookups use an explicit default. -/
structure SimState where
  start_time : ℚ
  total_bytes : ℕ
  buffers : String → ℚ
  stall_time : ℚ
  active_video_index : ℕ
  active_base_id : String
  stream_order : List String
  swipe_map : String → Option ℚ
  throughputs : List ℚ
  throughput_timeseries : List (ℚ × ℚ)
  buffer_timeseries : List (ℚ × ℚ)
  bitrate_timeseries : List (ℚ × ℚ)
  app_bandwidth_est : ℚ
  tp_window : List ℚ
  last_stall_time : ℚ
  per_stream_bytes : List (String × ℕ)
  per_stream_first_ts : List (String × ℚ)
  per_stream_last_ts : List (String × ℚ)

/-- The initial shared state of `run_client` (step 2 of the client). -/
def initState (stream_order : List String) (swipe_map : String → Option ℚ)
    (start_time : ℚ) : SimState where
  start_time := start_time
  total_bytes := 0
  buffers := fun _ => 0
  stall_time := 0
  active_video_index := 0
  active_base_id := stream_order.headD "0"
  stream_order := stream_order
  swipe_map := swipe_map
  throughputs := []
  throughput_timeseries := []
  buffer_timeseries := []
  bitrate_timeseries := []
  app_bandwidth_est := 5/2
  tp_window := []
  last_stall_time := 0
  per_stream_bytes := []
  per_stream_first_ts := []
  per_stream_last_ts := []

/-- Python `min(l)` on a possibly-empty list, with the fallback used at the
call site (`min(tp_window) if tp_window else tp_mbps`). -/
def pyMin (l : List ℚ) (dflt : ℚ) : ℚ :=
  match l with
  | [] => dflt
  | x :: xs => xs.foldl min x

/-- The sliding-window maintenance of `update_bandwidth_estimate` step 1:
append the sample, then evict the oldest entry if the window exceeds
`TP_WINDOW_LEN`. -/
def pushWindow (w : List ℚ) (tp : ℚ) : List ℚ :=
  let w := w ++ [tp]
  if TP_WINDOW_LEN < w.length then w.drop 1 else w

/-- The estimator `update_bandwidth_estimate(state, tp_mbps)`: EWMA blended
with the window minimum, buffer-risk scaled, stall-capped, and clamped. -/
def update_bandwidth_estimate (state : SimState) (tp_mbps : ℚ) : SimState :=
  let buf_active := state.buffers state.active_base_id
  let tp_window := pushWindow state.tp_window tp_mbps
  let safe_floor := pyMin tp_window tp_mbps
  let alpha : ℚ := if buf_active < 3 then 1/10 else if buf_active < 10 then 1/5 else 3/10
  let ewma_est := (1 - alpha) * state.app_bandwidth_est + alpha * tp_mbps
  let blended_est := 1/2 * ewma_est + 1/2 * safe_floor
  let risk_factor : ℚ :=
    if buf_active < 2 then 7/10
    else if buf_active < 5 then 17/20
    else if buf_active < 12 then 1
    else 11/10
  let buffer_aware_est := blended_est * risk_factor
  let buffer_aware_est :=
    if state.last_stall_time < state.stall_time then min buffer_aware_est (tp_mbps * (8/10))
    else buffer_aware_est
  let last_stall_time :=
    if state.last_stall_time < state.stall_time then state.stall_time
    else state.last_stall_time
  let buffer_aware_est := max (1/10) (min buffer_aware_est 100)
  { state with
      app_bandwidth_est := buffer_aware_est
      tp_window := tp_window
      last_stall_time := last_stall_time }

/-- The EWMA factor bands exactly as the claimed property words them. -/
def claimAlpha (buf : ℚ) : ℚ :=
  if buf < 3 then 1/10 else if buf < 10 then 1/5 else 3/10

/-- The buffer-risk multiplier bands exactly as the claimed property words them. -/
def claimRisk (buf : ℚ) : ℚ :=
  if buf < 2 then 7/10 else if buf < 5 then 17/20 else if buf < 12 then 1 else 11/10

/-- The clamp `clamp(x, 0.1, 100)` as the claimed property words it. -/
def claimClamp (x : ℚ) : ℚ := max (1/10) (min x 100)

/-- The value `BITRATE_LADDER[0][0]`, the lowest rung of the ladder. -/
def ladderFloor : ℚ := (BITRATE_LADDER.headD (0, "")).1

/-- The selection loop of `get_abr_decision`:
`for b, _ in BITRATE_LADDER: if b <= target: selected = b; else: break`. -/
def ladderLoop (target : ℚ) : List ℚ → ℚ → ℚ
  | [], selected => selected
  | b :: rest, selected => if b ≤ target then ladderLoop target rest b else selected

/-- The decision `get_abr_decision(state, is_active, base_id)`: pick a
target from the estimate and buffer situation, then walk the ladder. -/
def get_abr_decision (state : SimState) (is_active : Bool) (base_id : String) : ℚ :=
  let est := state.app_bandwidth_est
  let buf := state.buffers base_id
  if is_active then
    let target := if buf < 5 then est * (1/2) else est * (9/10)
    ladderLoop target ladderRates ladderFloor
  else
    if state.buffers state.active_base_id < PANIC_THRESHOLD then ladderFloor
    else ladderLoop (est * (1/2)) ladderRates ladderFloor

/-- The claimed selection rule: the highest ladder rung whose bitrate does
not exceed the target, with the lowest rung (0.5 Mbps) as the floor. -/
def highestRungAtMost (target : ℚ) : ℚ :=
  ladderRates.foldl (fun acc b => if b ≤ target then max acc b else acc) (1/2)

/-- The ABR decision exactly as the claim words it: active streams target
`0.9 × estimate` (`0.5 ×` when their own buffer is under 5 s); inactive
streams get the lowest rung outright when the active buffer is below the
panic threshold, and otherwise target `0.5 × estimate`. -/
def claimAbr (est buf_self buf_active : ℚ) (is_active : Bool) : ℚ :=
  if is_active then
    highestRungAtMost (if buf_self < 5 then est * (1/2) else est * (9/10))
  else if buf_active < 5 then 1/2
  else highestRungAtMost (est * (1/2))

/-- The claimed closed form for the new bandwidth estimate:
`clamp(risk(buf) * (0.5*((1-alpha(buf))*prev + alpha(buf)*tp) + 0.5*winMin), 0.1, 100)`,
with the value first capped at `0.8 * tp` when a new stall occurred. -/
def claimEstimate (prev tp buf winMin : ℚ) (stall_increased : Prop)
    [Decidable stall_increased] : ℚ :=
  let v := claimRisk buf *
    (1/2 * ((1 - claimAlpha buf) * prev + claimAlpha buf * tp) + 1/2 * winMin)
  claimClamp (if stall_increased then min v (8/10 * tp) else v)

/-- A schedule chunk event, keeping the fields the worker reads:
the `action` discriminator, `video_duration_sec` and `is_background`. -/
structure ChunkEvent where
  action : String
  video_duration_sec : ℚ
  is_background : Bool
deriving DecidableEq

/-- The worker's chunk list: `[ev for ev in events if ev["action"] == "download"]`. -/
def downloadChunks (events : List ChunkEvent) : List ChunkEvent :=
  events.filter (fun e => e.action == "download")

/-- Python `int(q)` on a rational: truncation toward zero. -/
def pyInt (q : ℚ) : ℤ := if q < 0 then -⌊-q⌋ else ⌊q⌋

/-- The request size `size_bytes = int((duration * bitrate * 1e6) / 8)`. -/
def chunk_size_bytes (duration bitrate : ℚ) : ℤ :=
  pyInt (duration * bitrate * 1000000 / 8)

/-- Outcome of one pass through the worker's gating check: `return`
(the stream was swiped past), `break` (start the transfer), or fall
through to `time.sleep(0.1)` and re-check. -/
inductive GateAction
  | terminate
  | proceed
  | wait
deriving DecidableEq

/-- One iteration of the gating loop of `handle_stream_logic`, reading the
snapshot `(active_idx, curr_buf)` taken under the lock.  `my_idx` is the
worker's position in stream order (`-1` if its `base_id` is unknown). -/
def gate_check (my_idx active_idx : ℤ) (curr_buf : ℚ) (bg : Bool) : GateAction :=
  if my_idx < active_idx then .terminate
  else if my_idx = active_idx then
    if curr_buf < MAX_BUFFER_ACTIVE then .proceed else .wait
  else if my_idx = active_idx + 1 then
    if bg then (if curr_buf < PREFETCH_TARGET then .proceed else .wait) else .wait
  else .wait

/-- Result of running the gating loop against a finite sequence of
lock-protected snapshots: the worker returned, proceeded to the transfer
(with the remaining snapshots), or consumed every snapshot while waiting. -/
inductive LoopResult
  | terminated
  | proceeded (rest : List (ℤ × ℚ))
  | starved

/-- The gating loop: poll snapshots until `gate_check` says otherwise. -/
def gate_loop (my_idx : ℤ) (bg : Bool) : List (ℤ × ℚ) → LoopResult
  | [] => .starved
  | (a, b) :: rest =>
    match gate_check my_idx a b bg with
    | .terminate => .terminated
    | .proceed => .proceeded rest
    | .wait => gate_loop my_idx bg rest

/-- The chunks a worker actually carries to the transfer step, given the
snapshot sequence its gating loop observes; `terminate` ends the whole
chunk loop (the `return` in the source), so no later chunk is reached. -/
def worker_downloads (my_idx : ℤ) : List ChunkEvent → List (ℤ × ℚ) → List ChunkEvent
  | [], _ => []
  | c :: cs, obs =>
    match gate_loop my_idx c.is_background obs with
    | .terminated => []
    | .starved => []
    | .proceeded rest => c :: worker_downloads my_idx cs rest

/-- Lookup with default: Python `d.get(k, dflt)`. -/
def lookupD {α : Type} (l : List (String × α)) (k : String) (dflt : α) : α :=
  match l.find? (fun p => p.1 == k) with
  | some p => p.2
  | none => dflt

/-- Python `defaultdict(int)` increment `d[k] += v` (missing keys start at
0 and are appended in insertion order). -/
def bumpNat (l : List (String × ℕ)) (k : String) (v : ℕ) : List (String × ℕ) :=
  match l with
  | [] => [(k, v)]
  | p :: rest => if p.1 = k then (p.1, p.2 + v) :: rest else p :: bumpNat rest k v

/-- Python `if k not in d: d[k] = v` on an insertion-ordered dict. -/
def setIfAbsent (l : List (String × ℚ)) (k : String) (v : ℚ) : List (String × ℚ) :=
  match l with
  | [] => [(k, v)]
  | p :: rest => if p.1 = k then p :: rest else p :: setIfAbsent rest k v

/-- Python `d[k] = v` on an insertion-ordered dict. -/
def setAlways (l : List (String × ℚ)) (k : String) (v : ℚ) : List (String × ℚ) :=
  match l with
  | [] => [(k, v)]
  | p :: rest => if p.1 = k then (p.1, v) :: rest else p :: setAlways rest k v

/-- Step 4 of `handle_stream_logic` (the lock-protected update after a
transfer): with `recvd` bytes received between instants `t0` and `now`,
credit the buffer proportionally, bump the byte and timestamp counters,
append the time-series samples and run the estimator — all only when
`recvd > 0`. -/
def worker_update (state : SimState) (full_sid base_id : String)
    (bitrate duration : ℚ) (size_bytes : ℤ) (recvd : ℕ) (t0 now : ℚ) : SimState :=
  let dt := max (1/1000000) (now - t0)
  let tp_mbps := ((recvd : ℚ) * 8) / (dt * 1000000)
  if 0 < recvd then
    let sim_time := now - state.start_time
    let frac : ℚ := (recvd : ℚ) / ((max 1 size_bytes : ℤ) : ℚ)
    let s := { state with
      total_bytes := state.total_bytes + recvd
      throughputs := state.throughputs ++ [tp_mbps]
      throughput_timeseries := state.throughput_timeseries ++ [(now, tp_mbps)]
      bitrate_timeseries := state.bitrate_timeseries ++ [(sim_time, bitrate)]
      buffers := Function.update state.buffers base_id (state.buffers base_id + duration * frac)
      per_stream_bytes := bumpNat state.per_stream_bytes full_sid recvd
      per_stream_first_ts := setIfAbsent state.per_stream_first_ts full_sid now
      per_stream_last_ts := setAlways state.per_stream_last_ts full_sid now }
    update_bandwidth_estimate s tp_mbps
  else state

/-- The swipe check at the top of a clock tick: if the next stream in order
has `playback_start_sec ≤ sim_time`, advance the active index to it. -/
def advance_active (s : SimState) (sim_time : ℚ) : SimState :=
  if h : s.active_video_index + 1 < s.stream_order.length then
    let next_sid := s.stream_order.get ⟨s.active_video_index + 1, h⟩
    if (s.swipe_map next_sid).getD 99999 ≤ sim_time then
      { s with active_video_index := s.active_video_index + 1, active_base_id := next_sid }
    else s
  else s

/-- The drain part of a clock tick: a positive active buffer drains by
`delta` floored at zero; an empty one accumulates `delta` of stall. -/
def drain_or_stall (s : SimState) (delta : ℚ) : SimState :=
  if 0 < s.buffers s.active_base_id then
    { s with buffers := Function.update s.buffers s.active_base_id (max 0 (s.buffers s.active_base_id - delta)) }
  else { s with stall_time := s.stall_time + delta }

/-- One iteration of `playback_simulation`: swipe check, drain/stall, and
the buffer time-series sample. -/
def playback_tick (s : SimState) (delta sim_time : ℚ) : SimState :=
  let s1 := advance_active s sim_time
  let s2 := drain_or_stall s1 delta
  { s2 with buffer_timeseries :=
      s2.buffer_timeseries ++ [(sim_time, s2.buffers s2.active_base_id)] }

/-- A state-modifying step of the run: one clock tick, or one worker
post-transfer update.  The lock serializes these, so a run is a sequence
of steps. -/
inductive Step
  | tick (delta sim_time : ℚ)
  | download (full_sid base_id : String) (bitrate duration : ℚ)
      (size_bytes : ℤ) (recvd : ℕ) (t0 now : ℚ)

/-- Apply one serialized step to the shared state. -/
def applyStep (s : SimState) : Step → SimState
  | .tick delta sim_time => playback_tick s delta sim_time
  | .download full_sid base_id bitrate duration size_bytes recvd t0 now =>
      worker_update s full_sid base_id bitrate duration size_bytes recvd t0 now

/-- A clock tick's elapsed-time delta is non-negative (real time moves
forward); worker updates carry no tick delta. -/
def Step.wellFormed : Step → Prop
  | .tick delta _ => 0 ≤ delta
  | .download .. => True

/-- The data-model requirement that chunk durations are positive, at the
step level; ticks carry no duration. -/
def Step.posDuration : Step → Prop
  | .tick _ _ => True
  | .download _ _ _ duration _ _ _ _ => 0 < duration

/-- All buffer levels are non-negative. -/
def NonnegBuffers (s : SimState) : Prop := ∀ k, 0 ≤ s.buffers k

/-- Sum of the per-stream byte counters. -/
def bytesSum (l : List (String × ℕ)) : ℕ := (l.map Prod.snd).sum

/-- The per-stream rate table of the metrics aggregator, after the ghost
filter (`dur > 0.1 and b_count > 1000`). -/
def per_stream_rates (s : SimState) : List (String × ℚ) :=
  s.per_stream_bytes.filterMap (fun p =>
    if 1/10 < lookupD s.per_stream_last_ts p.1 0 - lookupD s.per_stream_first_ts p.1 0
        ∧ 1000 < p.2 then
      some (p.1, ((p.2 : ℚ) * 8) /
        ((lookupD s.per_stream_last_ts p.1 0 - lookupD s.per_stream_first_ts p.1 0) * 1000000))
    else none)

/-- The fairness computation of `run_client`: `fairness = 1.0`, recomputed
as Jain's index `(Σr)² / (n·Σr²)` only when at least two streams survive
(with a 0 fallback for a non-positive denominator). -/
def fairness_of_rates (rates : List ℚ) : ℚ :=
  if 2 ≤ rates.length then
    let num := rates.sum ^ 2
    let den := (rates.length : ℚ) * (rates.map (fun r => r * r)).sum
    if 0 < den then num / den else 0
  else 1

/-- The `fairness_index` field of the final report. -/
def fairness_index (s : SimState) : ℚ :=
  fairness_of_rates ((per_stream_rates s).map Prod.snd)

/-- A final state in which exactly one stream survives the ghost filter:
2000 bytes transferred over one second of active duration. -/
def oneStreamState : SimState :=
  { initState ["1"] (fun _ => none) 0 with
    per_stream_bytes := [("1_a", 2000)]
    per_stream_first_ts := [("1_a", 0)]
    per_stream_last_ts := [("1_a", 1)] }

end Replayer

namespace Replayer

/-- Claim C1: for every state and throughput sample, the bandwidth estimator
stores `clamp(risk(buf) * (0.5*ewma + 0.5*min(window after pushing tp)), 0.1, 100)`,
where the EWMA uses the buffer-dependent factor (0.10 / 0.20 / 0.30), the
risk multiplier follows the buffer bands (0.7 / 0.85 / 1.0 / 1.1), and when
`stall_time` has increased since the previous update the value is first
capped at `0.8 * tp` before the final clamp. -/
theorem C1_estimator_formula (s : SimState) (tp : ℚ) :
    (update_bandwidth_estimate s tp).app_bandwidth_est =
      claimEstimate s.app_bandwidth_est tp (s.buffers s.active_base_id)
        (pyMin (pushWindow s.tp_window tp) tp)
        (s.last_stall_time < s.stall_time) := by
  simp only [update_bandwidth_estimate, claimEstimate, claimRisk, claimAlpha, claimClamp]
  split_ifs <;> ring_nf

/-- Closed form of the source's ladder loop on the concrete ladder. -/
lemma ladderLoop_closed_form (t : ℚ) :
    ladderLoop t ladderRates (1/2) =
      if 8 ≤ t then 8 else if 5 ≤ t then 5 else if 5/2 ≤ t then 5/2
      else if 1 ≤ t then 1 else 1/2 := by
  simp only [ladderRates, BITRATE_LADDER, List.map, ladderLoop]
  split_ifs <;> first | rfl | linarith

/-- Closed form of the claimed highest-rung-at-most selection rule. -/
lemma highestRungAtMost_closed_form (t : ℚ) :
    highestRungAtMost t =
      if 8 ≤ t then 8 else if 5 ≤ t then 5 else if 5/2 ≤ t then 5/2
      else if 1 ≤ t then 1 else 1/2 := by
  simp only [highestRungAtMost, ladderRates, BITRATE_LADDER, List.map, List.foldl]
  split_ifs <;> first | linarith | norm_num [max_def]

/-- The source loop implements the claimed selection rule. -/
lemma ladderLoop_eq_highestRungAtMost (t : ℚ) :
    ladderLoop t ladderRates (1/2) = highestRungAtMost t := by
  rw [ladderLoop_closed_form, highestRungAtMost_closed_form]

/-- The claimed selection rule always yields a ladder rung. -/
lemma highestRungAtMost_mem (t : ℚ) : highestRungAtMost t ∈ ladderRates := by
  rw [highestRungAtMost_closed_form]
  split_ifs <;> simp [ladderRates, BITRATE_LADDER]

/-- Claim C2: for every state and querying stream, the ABR decision equals
the claimed rule — active: highest rung not exceeding `0.9 × est` (`0.5 ×`
when the stream's own buffer is below 5 s); inactive with the active buffer
below the panic threshold: exactly the lowest rung; inactive otherwise:
highest rung not exceeding `0.5 × est` — with the lowest rung (0.5 Mbps) as
the floor, and the result is always a member of the fixed ladder. -/
theorem C2_abr_decision (s : SimState) (is_active : Bool) (base_id : String) :
    get_abr_decision s is_active base_id =
      claimAbr s.app_bandwidth_est (s.buffers base_id) (s.buffers s.active_base_id) is_active ∧
    get_abr_decision s is_active base_id ∈ ladderRates := by
  have hfloor : ladderFloor = 1/2 := rfl
  have hfloor_mem : ladderFloor ∈ ladderRates := by
    simp [ladderFloor, ladderRates, BITRATE_LADDER]
  constructor
  · cases is_active <;>
      simp only [get_abr_decision, claimAbr, PANIC_THRESHOLD, Bool.false_eq_true,
        if_false, if_true, hfloor, ladderLoop_eq_highestRungAtMost]
  · cases is_active <;>
      simp only [get_abr_decision, PANIC_THRESHOLD, Bool.false_eq_true, if_false, if_true,
        hfloor, ladderLoop_eq_highestRungAtMost] <;>
      split_ifs <;>
      first
        | exact hfloor ▸ hfloor_mem
        | exact highestRungAtMost_mem _

/-- A worker update with zero received bytes is the identity on the state. -/
lemma worker_update_zero (s : SimState) (full_sid base_id : String)
    (bitrate duration : ℚ) (size_bytes : ℤ) (t0 now : ℚ) :
    worker_update s full_sid base_id bitrate duration size_bytes 0 t0 now = s := rfl

/-- Claim C10: when a chunk's transfer completes with zero bytes received,
the worker's update step leaves every shared-state field unchanged —
`total_bytes`, the per-stream byte and timestamp counters, the buffers and
all three time series keep their prior values, and the bandwidth estimator
is not invoked (so `app_bandwidth_est` and `tp_window` are unchanged);
the worker then proceeds to its next chunk. -/
theorem C10_zero_bytes_no_effect (s : SimState) (full_sid base_id : String)
    (bitrate duration : ℚ) (size_bytes : ℤ) (t0 now : ℚ) :
    worker_update s full_sid base_id bitrate duration size_bytes 0 t0 now = s :=
  worker_update_zero s full_sid base_id bitrate duration size_bytes t0 now

/-- Claim C4: a worker leaves its gating loop and starts a transfer iff it
is the active stream with buffer below the active ceiling (20 s), or it is
exactly the next stream with a background chunk and buffer below the
prefetch target (5 s, strictly smaller than the ceiling); and whenever its
position is strictly behind the active index the gating check returns
(`terminate`), so neither this chunk nor any later chunk is downloaded. -/
theorem C4_gating (my_idx active_idx : ℤ) (curr_buf : ℚ) (bg : Bool) :
    (gate_check my_idx active_idx curr_buf bg = .proceed ↔
      (my_idx = active_idx ∧ curr_buf < MAX_BUFFER_ACTIVE) ∨
      (my_idx = active_idx + 1 ∧ bg = true ∧ curr_buf < PREFETCH_TARGET)) ∧
    (gate_check my_idx active_idx curr_buf bg = .terminate ↔ my_idx < active_idx) ∧
    PREFETCH_TARGET < MAX_BUFFER_ACTIVE ∧
    (∀ (cs : List ChunkEvent) (obs : List (ℤ × ℚ)), my_idx < active_idx →
      worker_downloads my_idx cs ((active_idx, curr_buf) :: obs) = []) := by
  have hterm : ∀ (cs : List ChunkEvent) (obs : List (ℤ × ℚ)), my_idx < active_idx →
      worker_downloads my_idx cs ((active_idx, curr_buf) :: obs) = [] := by
    intro cs obs hlt
    cases cs with
    | nil => rfl
    | cons c rest => simp [worker_downloads, gate_loop, gate_check, hlt]
  refine ⟨?_, ?_, by norm_num [PREFETCH_TARGET, MAX_BUFFER_ACTIVE], hterm⟩
  · unfold gate_check
    split_ifs with h1 h2 h3 h4 h5 h6
    · constructor
      · intro h; exact absurd h (by decide)
      · rintro (⟨ha, _⟩ | ⟨ha, _, _⟩) <;> exact (False.elim (by omega))
    · exact ⟨fun _ => Or.inl ⟨h2, h3⟩, fun _ => rfl⟩
    · constructor
      · intro h; exact absurd h (by decide)
      · rintro (⟨_, hb⟩ | ⟨ha, _, _⟩)
        · exact absurd hb h3
        · exact (False.elim (by omega))
    · exact ⟨fun _ => Or.inr ⟨h4, h5, h6⟩, fun _ => rfl⟩
    · constructor
      · intro h; exact absurd h (by decide)
      · rintro (⟨ha, _⟩ | ⟨_, _, hc⟩)
        · exact absurd ha h2
        · exact absurd hc h6
    · constructor
      · intro h; exact absurd h (by decide)
      · rintro (⟨ha, _⟩ | ⟨_, hb, _⟩)
        · exact absurd ha h2
        · exact absurd hb h5
    · constructor
      · intro h; exact absurd h (by decide)
      · rintro (⟨ha, _⟩ | ⟨ha, _, _⟩)
        · exact absurd ha h2
        · exact absurd ha h4
  · unfold gate_check
    split_ifs with h1 h2 h3 h4 h5 h6 <;>
      first
      | exact ⟨fun _ => h1, fun _ => rfl⟩
      | exact ⟨fun h => absurd h (by decide), fun h => absurd h h1⟩

/-- Concrete instance of the gating claim: a worker one position behind the
active index downloads nothing. -/
theorem C4_gating_witness :
    worker_downloads 0 [ChunkEvent.mk "download" 2 false] [((1 : ℤ), (0 : ℚ))] = [] :=
  (C4_gating 0 1 0 false).2.2.2 [ChunkEvent.mk "download" 2 false] [] (by norm_num)

/-- The estimator only touches the estimate, the window and the stall mark. -/
lemma update_bandwidth_estimate_buffers (s : SimState) (tp : ℚ) :
    (update_bandwidth_estimate s tp).buffers = s.buffers := rfl

/-- The swipe check never changes a buffer. -/
lemma advance_active_buffers (s : SimState) (t : ℚ) :
    (advance_active s t).buffers = s.buffers := by
  simp only [advance_active]
  split_ifs <;> rfl

/-- The swipe check never changes the stall clock. -/
lemma advance_active_stall (s : SimState) (t : ℚ) :
    (advance_active s t).stall_time = s.stall_time := by
  simp only [advance_active]
  split_ifs <;> rfl

/-- The swipe check either leaves the state alone or advances the active
index by exactly one, and then only because the next stream's scheduled
start has been reached. -/
lemma advance_active_cases (s : SimState) (t : ℚ) :
    advance_active s t = s ∨
    ((advance_active s t).active_video_index = s.active_video_index + 1 ∧
      ∃ h : s.active_video_index + 1 < s.stream_order.length,
        (s.swipe_map (s.stream_order.get ⟨s.active_video_index + 1, h⟩)).getD 99999 ≤ t) := by
  simp only [advance_active]
  split_ifs with h1 h2
  · exact Or.inr ⟨rfl, h1, h2⟩
  · exact Or.inl rfl
  · exact Or.inl rfl

/-- Draining keeps every buffer non-negative regardless of the delta. -/
lemma drain_or_stall_nonneg (s : SimState) (delta : ℚ) (h : NonnegBuffers s) :
    NonnegBuffers (drain_or_stall s delta) := by
  intro k
  unfold drain_or_stall
  split_ifs with hb
  · simp only [Function.update_apply]
    split_ifs with hk
    · exact le_max_left 0 _
    · exact h k
  · exact h k

/-- Draining does not change the active index. -/
lemma drain_or_stall_index (s : SimState) (delta : ℚ) :
    (drain_or_stall s delta).active_video_index = s.active_video_index := by
  unfold drain_or_stall
  split_ifs <;> rfl

/-- Draining only ever adds a non-negative delta to the stall clock. -/
lemma drain_or_stall_stall (s : SimState) (delta : ℚ) (hd : 0 ≤ delta) :
    s.stall_time ≤ (drain_or_stall s delta).stall_time := by
  unfold drain_or_stall
  split_ifs
  · exact le_refl _
  · simp only
    linarith

/-- A worker update does not change the active index. -/
lemma worker_update_index (s : SimState) (full_sid base_id : String)
    (bitrate duration : ℚ) (size_bytes : ℤ) (recvd : ℕ) (t0 now : ℚ) :
    (worker_update s full_sid base_id bitrate duration size_bytes recvd t0 now).active_video_index =
      s.active_video_index := by
  simp only [worker_update, update_bandwidth_estimate]
  split_ifs <;> rfl

/-- A worker update does not change the stall clock. -/
lemma worker_update_stall (s : SimState) (full_sid base_id : String)
    (bitrate duration : ℚ) (size_bytes : ℤ) (recvd : ℕ) (t0 now : ℚ) :
    (worker_update s full_sid base_id bitrate duration size_bytes recvd t0 now).stall_time =
      s.stall_time := by
  simp only [worker_update, update_bandwidth_estimate]
  split_ifs <;> rfl

/-- One serialized step keeps every buffer non-negative, given the data
model's positive chunk durations. -/
lemma applyStep_nonneg (s : SimState) (st : Step) (hd : st.posDuration)
    (h : NonnegBuffers s) : NonnegBuffers (applyStep s st) := by
  cases st with
  | tick delta sim_time =>
    intro k
    show 0 ≤ (playback_tick s delta sim_time).buffers k
    have : (playback_tick s delta sim_time).buffers =
        (drain_or_stall (advance_active s sim_time) delta).buffers := rfl
    rw [this]
    refine drain_or_stall_nonneg _ delta ?_ k
    intro k'
    rw [advance_active_buffers]
    exact h k'
  | download full_sid base_id bitrate duration size_bytes recvd t0 now =>
    intro k
    show 0 ≤ (worker_update s full_sid base_id bitrate duration size_bytes recvd t0 now).buffers k
    simp only [worker_update]
    split_ifs with hr
    · rw [update_bandwidth_estimate_buffers]
      simp only [Function.update_apply]
      split_ifs with hk
      · have hfrac : (0:ℚ) ≤ (recvd : ℚ) / ((max 1 size_bytes : ℤ) : ℚ) := by
          apply div_nonneg (by positivity)
          have h1 : (1:ℤ) ≤ max 1 size_bytes := le_max_left 1 size_bytes
          exact_mod_cast le_trans zero_le_one h1
        have hdur : (0:ℚ) ≤ duration := le_of_lt hd
        have := mul_nonneg hdur hfrac
        have hb := h base_id
        linarith
      · exact h k
    · exact h k

/-- Running any sequence of well-formed steps preserves buffer
non-negativity. -/
lemma foldl_applyStep_nonneg : ∀ (steps : List Step) (s : SimState),
    (∀ st ∈ steps, st.posDuration) → NonnegBuffers s →
    NonnegBuffers (steps.foldl applyStep s)
  | [], _, _, h0 => h0
  | st :: rest, s, hs, h0 =>
    foldl_applyStep_nonneg rest (applyStep s st)
      (fun x hx => hs x (List.mem_cons_of_mem st hx))
      (applyStep_nonneg s st (hs st (List.mem_cons_self st rest)) h0)

/-- Claim C5: over every run from the initial client state, every buffer
level is non-negative after every playback-clock tick and after every
worker state update, assuming the data model's positive chunk durations:
the clock drains floored at zero and workers only add a non-negative
credit `duration * (received_bytes / expected_bytes)`. -/
theorem C5_buffers_nonneg (stream_order : List String)
    (swipe_map : String → Option ℚ) (start_time : ℚ) (steps : List Step)
    (hs : ∀ st ∈ steps, st.posDuration) :
    NonnegBuffers (steps.foldl applyStep (initState stream_order swipe_map start_time)) :=
  foldl_applyStep_nonneg steps (initState stream_order swipe_map start_time) hs
    (fun _ => le_refl 0)

/-- Concrete instance of the buffer invariant after a tick and a download. -/
theorem C5_buffers_nonneg_witness :
    0 ≤ (List.foldl applyStep (initState ["1"] (fun _ => none) 0)
      [Step.tick 1 0, Step.download "1_a" "1" (1/2) 2 125000 500 0 1]).buffers "1" :=
  C5_buffers_nonneg ["1"] (fun _ => none) 0
    [Step.tick 1 0, Step.download "1_a" "1" (1/2) 2 125000 500 0 1]
    (by
      intro st hst
      rcases List.mem_cons.mp hst with rfl | hst
      · trivial
      · rcases List.mem_cons.mp hst with rfl | hst
        · norm_num [Step.posDuration]
        · exact absurd hst (List.not_mem_nil st)) "1"

/-- Claim C6: under every serialized state-modifying step with a
non-negative tick delta, `active_video_index` and `stall_time` are both
non-decreasing, and the index advances only by one, only on a clock tick,
and only because simulated time has reached the next stream's
`playback_start_sec`. -/
theorem C6_monotonicity (s : SimState) (st : Step) (hw : st.wellFormed) :
    s.active_video_index ≤ (applyStep s st).active_video_index ∧
    s.stall_time ≤ (applyStep s st).stall_time ∧
    ((applyStep s st).active_video_index = s.active_video_index ∨
      ((applyStep s st).active_video_index = s.active_video_index + 1 ∧
        ∃ delta sim_time, st = Step.tick delta sim_time ∧
          ∃ h : s.active_video_index + 1 < s.stream_order.length,
            (s.swipe_map (s.stream_order.get ⟨s.active_video_index + 1, h⟩)).getD 99999
              ≤ sim_time)) := by
  cases st with
  | tick delta sim_time =>
    have hidx : (applyStep s (Step.tick delta sim_time)).active_video_index =
        (advance_active s sim_time).active_video_index := by
      show (playback_tick s delta sim_time).active_video_index = _
      have : (playback_tick s delta sim_time).active_video_index =
          (drain_or_stall (advance_active s sim_time) delta).active_video_index := rfl
      rw [this, drain_or_stall_index]
    have hstall : s.stall_time ≤ (applyStep s (Step.tick delta sim_time)).stall_time := by
      show s.stall_time ≤ (playback_tick s delta sim_time).stall_time
      have : (playback_tick s delta sim_time).stall_time =
          (drain_or_stall (advance_active s sim_time) delta).stall_time := rfl
      rw [this]
      calc s.stall_time = (advance_active s sim_time).stall_time :=
            (advance_active_stall s sim_time).symm
        _ ≤ _ := drain_or_stall_stall _ delta hw
    rcases advance_active_cases s sim_time with heq | ⟨h1, h2, h3⟩
    · rw [hidx, heq]
      exact ⟨le_refl _, hstall, Or.inl rfl⟩
    · rw [hidx, h1]
      exact ⟨Nat.le_succ _, hstall, Or.inr ⟨rfl, delta, sim_time, rfl, h2, h3⟩⟩
  | download full_sid base_id bitrate duration size_bytes recvd t0 now =>
    refine ⟨?_, ?_, Or.inl ?_⟩
    · rw [show (applyStep s (Step.download full_sid base_id bitrate duration size_bytes recvd t0 now)).active_video_index = s.active_video_index from worker_update_index ..]
    · rw [show (applyStep s (Step.download full_sid base_id bitrate duration size_bytes recvd t0 now)).stall_time = s.stall_time from worker_update_stall ..]
    · exact worker_update_index ..

/-- Concrete instance of the monotonicity claim on a clock tick. -/
theorem C6_monotonicity_witness :
    (initState ["1"] (fun _ => none) 0).stall_time ≤
      (applyStep (initState ["1"] (fun _ => none) 0) (Step.tick 1 0)).stall_time :=
  (C6_monotonicity (initState ["1"] (fun _ => none) 0) (Step.tick 1 0)
    (by norm_num [Step.wellFormed])).2.1

/-- A `defaultdict(int)` bump adds exactly its increment to the sum of the
counters. -/
lemma bytesSum_bumpNat (l : List (String × ℕ)) (k : String) (v : ℕ) :
    bytesSum (bumpNat l k v) = bytesSum l + v := by
  induction l with
  | nil => simp [bumpNat, bytesSum]
  | cons p rest ih =>
    simp only [bumpNat]
    split_ifs with h
    · simp only [bytesSum, List.map_cons, List.sum_cons]
      omega
    · simp only [bytesSum, List.map_cons, List.sum_cons] at ih ⊢
      omega

/-- A clock tick touches neither byte counter. -/
lemma playback_tick_bytes (s : SimState) (d t : ℚ) :
    (playback_tick s d t).per_stream_bytes = s.per_stream_bytes ∧
    (playback_tick s d t).total_bytes = s.total_bytes := by
  simp only [playback_tick, drain_or_stall, advance_active]
  split_ifs <;> exact ⟨rfl, rfl⟩

/-- One serialized step preserves `Σ per-stream bytes = total_bytes`. -/
lemma applyStep_bytes (s : SimState) (st : Step)
    (h : bytesSum s.per_stream_bytes = s.total_bytes) :
    bytesSum (applyStep s st).per_stream_bytes = (applyStep s st).total_bytes := by
  cases st with
  | tick d t =>
    show bytesSum (playback_tick s d t).per_stream_bytes = (playback_tick s d t).total_bytes
    rw [(playback_tick_bytes s d t).1, (playback_tick_bytes s d t).2]
    exact h
  | download full_sid base_id bitrate duration size_bytes recvd t0 now =>
    by_cases hr : 0 < recvd
    · have h1 : (worker_update s full_sid base_id bitrate duration size_bytes recvd t0 now).per_stream_bytes = bumpNat s.per_stream_bytes full_sid recvd := by
        simp [worker_update, update_bandwidth_estimate, hr]
      have h2 : (worker_update s full_sid base_id bitrate duration size_bytes recvd t0 now).total_bytes = s.total_bytes + recvd := by
        simp [worker_update, update_bandwidth_estimate, hr]
      show bytesSum (worker_update s full_sid base_id bitrate duration size_bytes recvd t0 now).per_stream_bytes = (worker_update s full_sid base_id bitrate duration size_bytes recvd t0 now).total_bytes
      rw [h1, h2, bytesSum_bumpNat, h]
    · have h0 : recvd = 0 := Nat.eq_zero_of_not_pos hr
      subst h0
      show bytesSum (worker_update s full_sid base_id bitrate duration size_bytes 0 t0 now).per_stream_bytes = (worker_update s full_sid base_id bitrate duration size_bytes 0 t0 now).total_bytes
      rw [worker_update_zero]
      exact h

/-- The byte-conservation invariant survives any step sequence. -/
lemma foldl_applyStep_bytes : ∀ (steps : List Step) (s : SimState),
    bytesSum s.per_stream_bytes = s.total_bytes →
    bytesSum ((steps.foldl applyStep s).per_stream_bytes) =
      (steps.foldl applyStep s).total_bytes
  | [], _, h => h
  | st :: rest, s, h => foldl_applyStep_bytes rest (applyStep s st) (applyStep_bytes s st h)

/-- Claim C8: over every run from the initial client state, the sum of the
per-stream byte counters equals `total_bytes` after every serialized step,
and hence in the final aggregator report: each worker update adds the same
received-byte count to both inside one locked section. -/
theorem C8_bytes_conservation (stream_order : List String)
    (swipe_map : String → Option ℚ) (start_time : ℚ) (steps : List Step) :
    bytesSum ((steps.foldl applyStep (initState stream_order swipe_map start_time)).per_stream_bytes) =
      (steps.foldl applyStep (initState stream_order swipe_map start_time)).total_bytes :=
  foldl_applyStep_bytes steps (initState stream_order swipe_map start_time) rfl

/-- Counterexample to claim C3: with zero surviving streams the aggregator
does not produce an undefined/null fairness value — it leaves the
initialized numeric value `1.0` in place.  The initial state has an empty
rate table, yet `fairness_index` evaluates to the number 1. -/
theorem C3_counterexample :
    per_stream_rates (initState ["1"] (fun _ => none) 0) = [] ∧
    fairness_index (initState ["1"] (fun _ => none) 0) = 1 := ⟨rfl, rfl⟩

/-- Claim C3 (amended): with at most one surviving stream — one or zero —
the fairness output is the number `1.0` (the initialized default); the
zero-stream case is not null/undefined. -/
theorem C3_fairness_at_most_one (s : SimState)
    (h : (per_stream_rates s).length ≤ 1) : fairness_index s = 1 := by
  have hlen : ¬ 2 ≤ (per_stream_rates s).length := by omega
  simp [fairness_index, fairness_of_rates, hlen]

/-- Concrete instance of the amended claim C3: exactly one stream survives
and the fairness index is 1. -/
theorem C3_fairness_at_most_one_witness :
    (per_stream_rates oneStreamState).length ≤ 1 ∧
    fairness_index oneStreamState = 1 :=
  ⟨by norm_num [per_stream_rates, oneStreamState, initState, lookupD, List.find?, List.filterMap_cons, List.filterMap_nil],
   C3_fairness_at_most_one oneStreamState
     (by norm_num [per_stream_rates, oneStreamState, initState, lookupD, List.find?, List.filterMap_cons, List.filterMap_nil])⟩

/-- The bound `2ab ≤ n·a² + Σb²` summed over a list, the helper for
Cauchy-Schwarz. -/
lemma two_mul_sum_le (a : ℚ) : ∀ l : List ℚ,
    2 * a * l.sum ≤ (l.length : ℚ) * (a * a) + (l.map (fun r => r * r)).sum
  | [] => by simp
  | r :: t => by
    have ih := two_mul_sum_le a t
    have h2 : 2 * a * r ≤ a * a + r * r := by nlinarith [sq_nonneg (a - r)]
    simp only [List.sum_cons, List.map_cons, List.length_cons]
    push_cast
    nlinarith [ih, h2]

/-- Cauchy-Schwarz for list sums: `(Σr)² ≤ n · Σr²`. -/
lemma sq_sum_le_length_mul_sum_sq : ∀ l : List ℚ,
    l.sum * l.sum ≤ (l.length : ℚ) * (l.map (fun r => r * r)).sum
  | [] => by simp
  | r :: t => by
    have ih := sq_sum_le_length_mul_sum_sq t
    have h2 := two_mul_sum_le r t
    simp only [List.sum_cons, List.map_cons, List.length_cons]
    push_cast
    nlinarith [ih, h2]

/-- The sum of squares of a nonempty list of positive rationals is positive. -/
lemma sum_sq_pos (l : List ℚ) (hne : l ≠ []) (hpos : ∀ r ∈ l, 0 < r) :
    0 < (l.map (fun r => r * r)).sum := by
  apply List.sum_pos
  · intro x hx
    rcases List.mem_map.mp hx with ⟨r, hr, rfl⟩
    exact mul_pos (hpos r hr) (hpos r hr)
  · intro hmap
    exact hne (by simpa using hmap)

/-- Claim C7: for every nonempty list of strictly positive surviving rates,
the computed fairness value lies in `(0, 1]`; it equals exactly 1 whenever
all rates are equal; and the ghost filter indeed only produces strictly
positive rates. -/
theorem C7_jain_fairness (rates : List ℚ) (hne : rates ≠ [])
    (hpos : ∀ r ∈ rates, 0 < r) :
    (0 < fairness_of_rates rates ∧ fairness_of_rates rates ≤ 1) ∧
    ((∀ r ∈ rates, ∀ q ∈ rates, r = q) → fairness_of_rates rates = 1) ∧
    (∀ (s : SimState) (r : ℚ), r ∈ (per_stream_rates s).map Prod.snd → 0 < r) := by
  have hQ := sum_sq_pos rates hne hpos
  have hS := List.sum_pos rates hpos hne
  have hlen : 0 < rates.length := List.length_pos.mpr hne
  have hlenq : (0:ℚ) < (rates.length : ℚ) := by exact_mod_cast hlen
  refine ⟨?_, ?_, ?_⟩
  · simp only [fairness_of_rates]
    split_ifs with h2 hden
    · constructor
      · exact div_pos (by positivity) hden
      · rw [div_le_one hden]
        calc rates.sum ^ 2 = rates.sum * rates.sum := by ring
          _ ≤ _ := sq_sum_le_length_mul_sum_sq rates
    · exact absurd (mul_pos hlenq hQ) hden
    · exact ⟨one_pos, le_refl 1⟩
  · intro hall
    rcases rates with _ | ⟨c, t⟩
    · exact absurd rfl hne
    · have hc : ∀ x ∈ c :: t, x = c :=
        fun x hx => hall x hx c (List.mem_cons_self c t)
      have hsum : (c :: t).sum = (c :: t).length • c :=
        List.sum_eq_card_nsmul (c :: t) c hc
      have hmap : ∀ x ∈ (c :: t).map (fun r => r * r), x = c * c := by
        intro x hx
        rcases List.mem_map.mp hx with ⟨r, hr, rfl⟩
        rw [hc r hr]
      have hsum2 : ((c :: t).map (fun r => r * r)).sum = (c :: t).length • (c * c) := by
        have h := List.sum_eq_card_nsmul ((c :: t).map (fun r => r * r)) (c * c) hmap
        rwa [List.length_map] at h
      have hcpos : 0 < c := hpos c (List.mem_cons_self c t)
      have hc0 : c ≠ 0 := ne_of_gt hcpos
      have hn0 : ((c :: t).length : ℚ) ≠ 0 := ne_of_gt hlenq
      simp only [fairness_of_rates]
      split_ifs with h2 hden
      · rw [hsum, hsum2, nsmul_eq_mul, nsmul_eq_mul]
        field_simp
        ring
      · rw [hsum2, nsmul_eq_mul] at hden
        exact absurd (by positivity) hden
      · rfl
  · intro s r hr
    rcases List.mem_map.mp hr with ⟨⟨sid, rate⟩, hmem, rfl⟩
    simp only [per_stream_rates, List.mem_filterMap] at hmem
    obtain ⟨p, _, hsome⟩ := hmem
    split_ifs at hsome with hcond
    · rcases hcond with ⟨hdur, hcount⟩
      simp only [Option.some.injEq, Prod.mk.injEq] at hsome
      rw [← hsome.2]
      apply div_pos
      · have : (1000 : ℚ) < (p.2 : ℚ) := by exact_mod_cast hcount
        nlinarith
      · nlinarith

/-- Concrete instance of the fairness-range claim on two equal rates. -/
theorem C7_jain_fairness_witness :
    (0 < fairness_of_rates [2, 2] ∧ fairness_of_rates [2, 2] ≤ 1) ∧
    fairness_of_rates [2, 2] = 1 :=
  ⟨(C7_jain_fairness [2, 2] (by simp)
      (by intro r hr; fin_cases hr <;> norm_num)).1,
   (C7_jain_fairness [2, 2] (by simp)
      (by intro r hr; fin_cases hr <;> norm_num)).2.1
      (by intro r hr q hq; fin_cases hr <;> fin_cases hq <;> rfl)⟩

/-- Counterexample to claim C9: a chunk with non-positive
`video_duration_sec` is not skipped — the worker's chunk filter keeps it
(only the `action` discriminator is checked) and a transfer request of
non-positive size is computed for it; no skip or log path exists. -/
theorem C9_counterexample :
    downloadChunks [ChunkEvent.mk "download" (-1) false] =
      [ChunkEvent.mk "download" (-1) false] ∧
    chunk_size_bytes (-1) (1/2) = -62500 := by
  constructor
  · rfl
  · norm_num [chunk_size_bytes, pyInt]

/-- Claim C9 (amended): a chunk with non-positive duration does not abort
the worker or the run, but it is not skipped or logged either: it is
processed like any other chunk, its computed request size is non-positive
(so the receive loop is never entered and zero bytes arrive), the state
update is a no-op, and the worker continues with the remaining chunks. -/
theorem C9_nonpositive_duration (duration bitrate : ℚ)
    (hd : duration ≤ 0) (hb : 0 ≤ bitrate) (s : SimState)
    (full_sid base_id : String) (t0 now : ℚ) :
    chunk_size_bytes duration bitrate ≤ 0 ∧
    worker_update s full_sid base_id bitrate duration
      (chunk_size_bytes duration bitrate) 0 t0 now = s := by
  constructor
  · have hq : duration * bitrate * 1000000 / 8 ≤ 0 := by nlinarith
    simp only [chunk_size_bytes, pyInt]
    split_ifs with h
    · have h0 : (0:ℤ) ≤ ⌊-(duration * bitrate * 1000000 / 8)⌋ :=
        Int.floor_nonneg.mpr (by linarith)
      linarith
    · calc ⌊duration * bitrate * 1000000 / 8⌋ ≤ ⌊(0:ℚ)⌋ := Int.floor_le_floor hq
        _ = 0 := Int.floor_zero
  · exact worker_update_zero s full_sid base_id bitrate duration
      (chunk_size_bytes duration bitrate) t0 now

/-- Concrete instance of the amended claim C9 on a duration of −1 s. -/
theorem C9_nonpositive_duration_witness :
    chunk_size_bytes (-1) (1/2) ≤ 0 ∧
    worker_update (initState ["1"] (fun _ => none) 0) "1_a" "1" (1/2) (-1)
      (chunk_size_bytes (-1) (1/2)) 0 0 1 = initState ["1"] (fun _ => none) 0 :=
  C9_nonpositive_duration (-1) (1/2) (by norm_num) (by norm_num)
    (initState ["1"] (fun _ => none) 0) "1_a" "1" 0 1

end Replayer
